import Mathlib

set_option maxHeartbeats 800000

/-!
Shallow embedding of the export pipeline in src/src/App.tsx: the two export
functions (exportToPdf, exportToPpt) that rasterize every content section and
assemble the bitmaps into a paginated PDF document or a 16:9 slide deck, plus
the single-flight controller flag and the readiness gate for fonts and images.
Geometry is modelled over the rationals; the sequential async control flow is
modelled as a deterministic run function over an explicit environment.
-/

namespace PdfHtml

/-- One rendered content block (a section element): the measured scroll and
offset sizes in pixels that the export loops read (App.tsx lines 66-68 and
163-165). -/
structure ContentSection where
  scrollWidth : Nat
  scrollHeight : Nat
  offsetWidth : Nat
  offsetHeight : Nat
deriving DecidableEq

/-- JavaScript logical-or on numbers as used in the size fallbacks: 0 is
falsy, so the left operand wins unless it is 0. -/
def jsOr (a b : Nat) : Nat := if a = 0 then b else a

/-- Intrinsic capture width: scrollWidth, falling back to offsetWidth, falling
back to 1600 (App.tsx line 66 and line 163). -/
def sectionWidth (s : ContentSection) : Nat :=
  jsOr s.scrollWidth (jsOr s.offsetWidth 1600)

/-- Intrinsic capture height: scrollHeight, falling back to offsetHeight,
falling back to 900 (App.tsx lines 67-68 and 164-165). -/
def sectionHeight (s : ContentSection) : Nat :=
  jsOr s.scrollHeight (jsOr s.offsetHeight 900)

/-- Capture scale: min(2, 1600 / max(width, height)) (App.tsx lines 69-70 and
166-167). -/
def captureScale (w h : Nat) : ℚ := min 2 (1600 / (max w h : ℚ))

/-- Pixel width of the bitmap produced by the rasterizer for a section of
intrinsic size w by h: the html2canvas call receives width w and the capture
scale, so the canvas is w times the scale wide (App.tsx lines 72-84). -/
def canvasWidth (w h : Nat) : ℚ := (w : ℚ) * captureScale w h

/-- Pixel height of the captured bitmap, h times the capture scale. -/
def canvasHeight (w h : Nat) : ℚ := (h : ℚ) * captureScale w h

/-- Placement geometry of one bitmap on one page or slide, in destination
length units: position x, y and size w, h. -/
structure Placement where
  x : ℚ
  y : ℚ
  w : ℚ
  h : ℚ
deriving DecidableEq

/-- PDF page width in inches: the custom landscape format [20, 11.25]
(App.tsx lines 54-58). -/
def pageWidth : ℚ := 20

/-- PDF page height in inches: 11.25 = 45/4. -/
def pageHeight : ℚ := 45 / 4

/-- The printer margin used by the PDF path: zero, for a borderless result
(App.tsx line 62). -/
def margin : ℚ := 0

/-- Uniform fit ratio for the PDF page: min of the horizontal and vertical
page-over-bitmap quotients, with the margin subtracted twice (App.tsx lines
89-92). -/
def pageFitScale (W H : ℚ) : ℚ :=
  min ((pageWidth - margin * 2) / W) ((pageHeight - margin * 2) / H)

/-- Placement computed by the PDF path for a bitmap of pixel size W by H:
origin at (margin, margin) and size scaled by the fit ratio (App.tsx lines
93-97 and 103). -/
def pdfPlacement (W H : ℚ) : Placement :=
  ⟨margin, margin, W * pageFitScale W H, H * pageFitScale W H⟩

/-- Slide width in inches of the 16:9 layout (App.tsx line 157). -/
def slideWidth : ℚ := 10

/-- Slide height in inches: 5.625 = 45/8 (App.tsx line 158). -/
def slideHeight : ℚ := 45 / 8

/-- Pixels-to-inches conversion at the fixed browser density of 96 pixels per
inch (App.tsx line 159). -/
def pxToIn (px : ℚ) : ℚ := px / 96

/-- Uniform fit ratio for a slide, computed on the inch-converted bitmap size
(App.tsx lines 184-189). -/
def slideFitScale (W H : ℚ) : ℚ :=
  min (slideWidth / pxToIn W) (slideHeight / pxToIn H)

/-- Placement computed by the deck path for a bitmap of pixel size W by H:
size is the inch size times the fit ratio and the position centers it both
ways (App.tsx lines 190-202). -/
def pptPlacement (W H : ℚ) : Placement :=
  ⟨(slideWidth - pxToIn W * slideFitScale W H) / 2,
   (slideHeight - pxToIn H * slideFitScale W H) / 2,
   pxToIn W * slideFitScale W H,
   pxToIn H * slideFitScale W H⟩

/-- The placement the PDF loop computes for one section: capture at the
section size, then fit the resulting bitmap to the page. -/
def sectionPdfPlacement (s : ContentSection) : Placement :=
  pdfPlacement (canvasWidth (sectionWidth s) (sectionHeight s))
    (canvasHeight (sectionWidth s) (sectionHeight s))

/-- The placement the deck loop computes for one section. -/
def sectionPptPlacement (s : ContentSection) : Placement :=
  pptPlacement (canvasWidth (sectionWidth s) (sectionHeight s))
    (canvasHeight (sectionWidth s) (sectionHeight s))

/-- A jsPDF document: an ordered list of pages, each holding the placements
of the images added to it. The last page is the current page. -/
structure PdfDoc where
  pages : List (List Placement)
deriving DecidableEq

/-- A fresh jsPDF document starts with one empty page (App.tsx lines 54-58). -/
def jsPdfNew : PdfDoc := ⟨[[]]⟩

/-- pdf.addPage appends a new empty page, which becomes current (App.tsx
line 100). -/
def addPage (d : PdfDoc) : PdfDoc := ⟨d.pages ++ [[]]⟩

/-- pdf.addImage places an image on the current (last) page (App.tsx
line 103). -/
def addImage (d : PdfDoc) (p : Placement) : PdfDoc :=
  ⟨d.pages.dropLast ++ [(d.pages.getLast?.getD []) ++ [p]]⟩

/-- One iteration of the PDF export loop for section index i: append a new
page unless this is the first section, then place the captured bitmap
(App.tsx lines 64-104). -/
def pdfStep (d : PdfDoc) (i : Nat) (s : ContentSection) : PdfDoc :=
  addImage (if i ≠ 0 then addPage d else d) (sectionPdfPlacement s)

/-- The PDF export loop over the remaining sections, carrying the running
document and the loop counter. -/
def pdfLoop (d : PdfDoc) (i : Nat) : List ContentSection → PdfDoc
  | [] => d
  | s :: rest => pdfLoop (pdfStep d i s) (i + 1) rest

/-- The document assembled by exportToPdf from an ordered section list. -/
def exportPdfBuild (sections : List ContentSection) : PdfDoc :=
  pdfLoop jsPdfNew 0 sections

/-- A PptxGenJS deck: an ordered list of slides, each holding the placements
of the images added to it. The last slide is the current slide. -/
structure PptxDoc where
  slides : List (List Placement)
deriving DecidableEq

/-- A fresh deck has no slides (App.tsx line 155). -/
def pptxNew : PptxDoc := ⟨[]⟩

/-- pptx.addSlide appends a new empty slide (App.tsx line 195). -/
def addSlide (d : PptxDoc) : PptxDoc := ⟨d.slides ++ [[]]⟩

/-- slide.addImage places an image on the current (last) slide (App.tsx
lines 196-202). -/
def slideAddImage (d : PptxDoc) (p : Placement) : PptxDoc :=
  ⟨d.slides.dropLast ++ [(d.slides.getLast?.getD []) ++ [p]]⟩

/-- One iteration of the deck export loop: add a new slide, then place the
captured bitmap centered on it (App.tsx lines 161-203). -/
def pptStep (d : PptxDoc) (s : ContentSection) : PptxDoc :=
  slideAddImage (addSlide d) (sectionPptPlacement s)

/-- The deck assembled by exportToPpt from an ordered section list. -/
def exportPptBuild (sections : List ContentSection) : PptxDoc :=
  sections.foldl pptStep pptxNew

/-- A load or error signal fired by an image element. -/
inductive ImgEvent
  | load
  | error
deriving DecidableEq

/-- An image element as seen by prepareImage: the complete flag and
naturalWidth at the time the wait begins, and the load/error signals that
fire afterwards (App.tsx lines 29-49 and 131-151). -/
structure ImgEl where
  complete : Bool
  naturalWidth : Nat
  futureEvents : List ImgEvent
deriving DecidableEq

/-- The already-complete fast path of prepareImage resolves immediately
exactly when the image is complete with a nonzero naturalWidth (App.tsx
lines 36-39). -/
def resolvesImmediately (img : ImgEl) : Bool :=
  img.complete && img.naturalWidth != 0

/-- The readiness wait for one image resolves if the fast path fires, or
otherwise once any later load or error signal fires on the attached
listeners (App.tsx lines 36-48): a failure signal settles the wait exactly
like a success signal. -/
def prepareImageResolves (img : ImgEl) : Bool :=
  resolvesImmediately img || !img.futureEvents.isEmpty

/-- The environment one export run observes: the ordered section list, the
document images, which capture iterations throw, and whether the final
save/write throws. -/
structure Env where
  sections : List ContentSection
  images : List ImgEl
  captureFails : Nat → Bool
  saveFails : Bool

/-- The kind of export held by the exportingType flag while a job runs. -/
inductive Kind
  | pdf
  | ppt
deriving DecidableEq

/-- Observable events of one run, in order: the font readiness wait, the
readiness wait on image i, the capture attempt of section i, the save/write
attempt, and the two alert notices. -/
inductive Ev
  | fontsWait
  | imageWait (i : Nat)
  | capture (i : Nat)
  | save
  | alertNoContent
  | alertFailed
deriving DecidableEq

/-- How a start request settles: dropped by the guard, failed on empty
content, suspended forever at the readiness gate, failed inside the
try block, or completed. -/
inductive Outcome
  | noOp
  | noContent
  | suspended
  | failed
  | completed
deriving DecidableEq

/-- The result of one start request: the exportingType flag after the run
settles (or where it is stuck), the event trace, the artifact written to the
download target, and the outcome. -/
structure RunResult where
  finalState : Option Kind
  trace : List Ev
  artifact : Option (List (List Placement))
  outcome : Outcome
deriving DecidableEq

/-- The readiness gate passes exactly when every document image settles
(App.tsx line 51): Promise.all over prepareImage. -/
def allImagesSettle (env : Env) : Bool := env.images.all prepareImageResolves

/-- The first loop index whose capture throws, if any: the error at that
index aborts the loop (App.tsx lines 64-104). -/
def firstCaptureFailure (env : Env) : Option Nat :=
  (List.range env.sections.length).find? env.captureFails

/-- The events of the readiness gate, which precede every capture: the font
wait, then one wait per document image (App.tsx lines 27-51). -/
def readinessTrace (env : Env) : List Ev :=
  Ev.fontsWait :: (List.range env.images.length).map Ev.imageWait

/-- The pages or slides assembled for the given kind. -/
def buildFor : Kind → List ContentSection → List (List Placement)
  | .pdf, l => (exportPdfBuild l).pages
  | .ppt, l => (exportPptBuild l).slides

/-- One start request against controller state st: the guard drops it when a
job is in flight; otherwise the run sets the flag, checks for empty content,
waits at the readiness gate (suspending forever if some image never
settles), captures sections in order until one throws, saves only after the
loop finishes, and the finally block clears the flag on every settled path
(App.tsx lines 13-113 and 115-212). -/
def runExport (k : Kind) (st : Option Kind) (env : Env) : RunResult :=
  if st.isSome then ⟨st, [], none, .noOp⟩
  else if env.sections.isEmpty then
    ⟨none, [.alertNoContent], none, .noContent⟩
  else if !allImagesSettle env then
    ⟨some k, readinessTrace env, none, .suspended⟩
  else
    match firstCaptureFailure env with
    | some j =>
        ⟨none,
         readinessTrace env ++ (List.range (j + 1)).map Ev.capture
           ++ [.alertFailed],
         none, .failed⟩
    | none =>
        if env.saveFails then
          ⟨none,
           readinessTrace env
             ++ (List.range env.sections.length).map Ev.capture
             ++ [.save, .alertFailed],
           none, .failed⟩
        else
          ⟨none,
           readinessTrace env
             ++ (List.range env.sections.length).map Ev.capture
             ++ [.save],
           some (buildFor k env.sections), .completed⟩

/-- A sample measurable section, 1600 by 900. -/
def secA : ContentSection := ⟨1600, 900, 0, 0⟩

/-- A sample environment: one section, no images, nothing fails. -/
def envOk : Env := ⟨[secA], [], fun _ => false, false⟩

/-- A sample empty environment: no sections at all. -/
def envEmpty : Env := ⟨[], [], fun _ => false, false⟩

/-- A sample failing environment: five sections, capture of the fourth
(index 3) throws. -/
def envFail : Env := ⟨List.replicate 5 secA, [], fun i => i == 3, false⟩

/-- A sample image that settles through a later error signal. -/
def imgErr : ImgEl := ⟨false, 0, [ImgEvent.error]⟩

/-- A sample image already in the failed state when the wait begins:
complete, naturalWidth zero, and no further signals. -/
def imgStuck : ImgEl := ⟨true, 0, []⟩

/-- A sample environment whose only image settles by an error signal. -/
def envErrImg : Env := ⟨[secA], [imgErr], fun _ => false, false⟩

/-- A sample environment whose only image is already failed and silent. -/
def envStuck : Env := ⟨[secA], [imgStuck], fun _ => false, false⟩

end PdfHtml

namespace PdfHtml

/-- Claim C2 theorem: capture sizing. The scale is min(2, 1600/max(w,h)), the
bitmap is (w times scale, h times scale), an unmeasurable section falls back
to 1600 by 900, and the concrete sections 1600x900, 800x1200 and 3200x900 get
scales 1, 1600/1200 and 1/2. -/
theorem captureScaleSpec :
    (∀ w h : Nat, captureScale w h = min 2 (1600 / (max w h : ℚ))) ∧
    (∀ w h : Nat, canvasWidth w h = (w : ℚ) * captureScale w h ∧
      canvasHeight w h = (h : ℚ) * captureScale w h) ∧
    sectionWidth ⟨0, 0, 0, 0⟩ = 1600 ∧
    sectionHeight ⟨0, 0, 0, 0⟩ = 900 ∧
    captureScale 1600 900 = 1 ∧
    captureScale 800 1200 = 1600 / 1200 ∧
    captureScale 3200 900 = 1 / 2 ∧
    canvasWidth 800 1200 = 800 * (1600 / 1200) ∧
    canvasHeight 800 1200 = 1200 * (1600 / 1200) := by
  refine ⟨fun w h => rfl, fun w h => ⟨rfl, rfl⟩, by decide, by decide,
    ?_, ?_, ?_, ?_, ?_⟩ <;>
    norm_num [captureScale, canvasWidth, canvasHeight]

/-- Claim C3 theorem: page fitting. On the fixed 20 by 11.25 page with zero
margin, the fit ratio is min(pageWidth/W, pageHeight/H), the placed size
never exceeds the page bounds, and the placement origin is exactly (0, 0). -/
theorem pageFitSpec (W H : ℚ) (hW : 0 < W) (hH : 0 < H) :
    pageFitScale W H = min (pageWidth / W) (pageHeight / H) ∧
    pdfPlacement W H =
      ⟨0, 0, W * pageFitScale W H, H * pageFitScale W H⟩ ∧
    W * pageFitScale W H ≤ pageWidth ∧
    H * pageFitScale W H ≤ pageHeight ∧
    pageWidth = 20 ∧ pageHeight = 11.25 := by
  have hW0 : W ≠ 0 := ne_of_gt hW
  have hH0 : H ≠ 0 := ne_of_gt hH
  have hfit : pageFitScale W H = min (pageWidth / W) (pageHeight / H) := by
    simp [pageFitScale, margin]
  refine ⟨hfit, by simp [pdfPlacement, margin], ?_, ?_, rfl, by norm_num [pageHeight]⟩
  · have h1 : W * pageFitScale W H ≤ W * (pageWidth / W) := by
      rw [hfit]
      exact mul_le_mul_of_nonneg_left (min_le_left _ _) (le_of_lt hW)
    have h2 : W * (pageWidth / W) = pageWidth := by
      field_simp
    rw [h2] at h1
    exact h1
  · have h1 : H * pageFitScale W H ≤ H * (pageHeight / H) := by
      rw [hfit]
      exact mul_le_mul_of_nonneg_left (min_le_right _ _) (le_of_lt hH)
    have h2 : H * (pageHeight / H) = pageHeight := by
      field_simp
    rw [h2] at h1
    exact h1

/-- Claim C3 witness: the page-fit theorem evaluated on a concrete 3200 by
900 bitmap. -/
theorem pageFitSpec_witness :
    pageFitScale 3200 900 = min (pageWidth / 3200) (pageHeight / 900) ∧
    pdfPlacement 3200 900 =
      ⟨0, 0, 3200 * pageFitScale 3200 900, 900 * pageFitScale 3200 900⟩ ∧
    3200 * pageFitScale 3200 900 ≤ pageWidth ∧
    900 * pageFitScale 3200 900 ≤ pageHeight ∧
    pageWidth = 20 ∧ pageHeight = 11.25 :=
  pageFitSpec 3200 900 (by norm_num) (by norm_num)

/-- Claim C4 theorem: slide fitting. Pixels convert to inches at exactly 96
pixels per inch, the fit ratio is min over the converted size on the fixed
10 by 5.625 slide, and the placed image is centered both ways. -/
theorem slideFitSpec (W H : ℚ) :
    pxToIn W = W / 96 ∧
    slideFitScale W H =
      min (slideWidth / (W / 96)) (slideHeight / (H / 96)) ∧
    (pptPlacement W H).w = pxToIn W * slideFitScale W H ∧
    (pptPlacement W H).h = pxToIn H * slideFitScale W H ∧
    (pptPlacement W H).x = (slideWidth - (pptPlacement W H).w) / 2 ∧
    (pptPlacement W H).y = (slideHeight - (pptPlacement W H).h) / 2 ∧
    slideWidth = 10 ∧ slideHeight = 5.625 := by
  refine ⟨rfl, rfl, rfl, rfl, rfl, rfl, rfl, by norm_num [slideHeight]⟩

theorem addImage_addPage (d : PdfDoc) (p : Placement) :
    addImage (addPage d) p = ⟨d.pages ++ [[p]]⟩ := by
  cases d with
  | mk pages => simp [addImage, addPage]

theorem pdfLoop_pages (l : List ContentSection) :
    ∀ (d : PdfDoc) (i : Nat),
      pdfLoop d (i + 1) l =
        ⟨d.pages ++ l.map (fun s => [sectionPdfPlacement s])⟩ := by
  induction l with
  | nil => intro d i; simp [pdfLoop]
  | cons s rest ih =>
      intro d i
      have hstep : pdfStep d (i + 1) s = ⟨d.pages ++ [[sectionPdfPlacement s]]⟩ := by
        simp [pdfStep, addImage_addPage]
      simp [pdfLoop, hstep, ih]

theorem exportPdfBuild_pages (s0 : ContentSection) (rest : List ContentSection) :
    exportPdfBuild (s0 :: rest) =
      ⟨(s0 :: rest).map (fun s => [sectionPdfPlacement s])⟩ := by
  have h1 : pdfStep jsPdfNew 0 s0 = ⟨[[sectionPdfPlacement s0]]⟩ := by
    simp [pdfStep, jsPdfNew, addImage]
  have h2 := pdfLoop_pages rest ⟨[[sectionPdfPlacement s0]]⟩ 0
  simp [exportPdfBuild, pdfLoop, h1, h2]

theorem slideAddImage_addSlide (d : PptxDoc) (p : Placement) :
    slideAddImage (addSlide d) p = ⟨d.slides ++ [[p]]⟩ := by
  cases d with
  | mk slides => simp [slideAddImage, addSlide]

theorem pptFold_slides (l : List ContentSection) :
    ∀ d : PptxDoc,
      l.foldl pptStep d = ⟨d.slides ++ l.map (fun s => [sectionPptPlacement s])⟩ := by
  induction l with
  | nil => intro d; simp
  | cons s rest ih =>
      intro d
      have hstep : pptStep d s = ⟨d.slides ++ [[sectionPptPlacement s]]⟩ := by
        simp [pptStep, slideAddImage_addSlide]
      simp [hstep, ih]

theorem exportPptBuild_slides (l : List ContentSection) :
    exportPptBuild l = ⟨l.map (fun s => [sectionPptPlacement s])⟩ := by
  have h := pptFold_slides l pptxNew
  simpa [exportPptBuild, pptxNew] using h

/-- Claim C1 theorem: one page and one slide per section. For any non-empty
section list, the assembled PDF has exactly one page per section and the
assembled deck one slide per section, carrying that section in input order;
in particular both have length N. -/
theorem onePagePerSection (sections : List ContentSection) (h : sections ≠ []) :
    (exportPdfBuild sections).pages =
        sections.map (fun s => [sectionPdfPlacement s]) ∧
    (exportPptBuild sections).slides =
        sections.map (fun s => [sectionPptPlacement s]) ∧
    (exportPdfBuild sections).pages.length = sections.length ∧
    (exportPptBuild sections).slides.length = sections.length := by
  cases sections with
  | nil => exact absurd rfl h
  | cons s0 rest =>
      have hpdf := exportPdfBuild_pages s0 rest
      have hppt := exportPptBuild_slides (s0 :: rest)
      refine ⟨?_, ?_, ?_, ?_⟩ <;> simp [hpdf, hppt]

/-- Claim C1 witness: the pagination theorem evaluated on a concrete
two-section list. -/
theorem onePagePerSection_witness :
    (exportPdfBuild [secA, secA]).pages =
        [secA, secA].map (fun s => [sectionPdfPlacement s]) ∧
    (exportPptBuild [secA, secA]).slides =
        [secA, secA].map (fun s => [sectionPptPlacement s]) ∧
    (exportPdfBuild [secA, secA]).pages.length = 2 ∧
    (exportPptBuild [secA, secA]).slides.length = 2 :=
  onePagePerSection [secA, secA] (by decide)

/-- Claim C5 theorem: single-flight guard. While a job of either kind is in
flight (the flag is non-null), a start request of either kind returns
immediately: the flag keeps its value, no event happens, no artifact is
written, and no second job starts or is queued. -/
theorem singleFlightGuard (k : Kind) (st : Option Kind) (env : Env)
    (h : st.isSome = true) :
    runExport k st env = ⟨st, [], none, .noOp⟩ := by
  simp [runExport, h]

/-- Claim C5 witness: starting a deck export while a PDF export is in flight
is a no-op. -/
theorem singleFlightGuard_witness :
    runExport .ppt (some .pdf) envOk = ⟨some .pdf, [], none, .noOp⟩ :=
  singleFlightGuard .ppt (some .pdf) envOk rfl

/-- Claim C6 theorem: every settled exit path of a started job — normal
completion, the empty-content failure, a capture error or a save error —
clears the exportingType flag back to null; only the unsettled readiness
stall is excluded. -/
theorem alwaysReturnsToIdle (k : Kind) (env : Env)
    (h : (runExport k none env).outcome ≠ .suspended) :
    (runExport k none env).finalState = none := by
  by_cases h1 : env.sections.isEmpty
  · simp [runExport, h1]
  · by_cases h2 : allImagesSettle env = true
    · cases h3 : firstCaptureFailure env with
      | some j => simp [runExport, h1, h2, h3]
      | none =>
          by_cases h4 : env.saveFails
          · simp [runExport, h1, h2, h3, h4]
          · simp [runExport, h1, h2, h3, h4]
    · exact absurd (by simp [runExport, h1, h2]) h

/-- Claim C6 witness: a run that completes normally ends with the flag
cleared. -/
theorem alwaysReturnsToIdle_witness :
    (runExport .pdf none envOk).finalState = none :=
  alwaysReturnsToIdle .pdf envOk (by decide)

/-- Claim C7 theorem: empty content. When the content source yields zero
sections, the run shows only the no-content notice, never reaches the font
wait, the image waits or any capture, writes no file, and ends with the flag
cleared. -/
theorem emptyContentRun (k : Kind) (env : Env) (h : env.sections = []) :
    runExport k none env = ⟨none, [.alertNoContent], none, .noContent⟩ ∧
    Ev.fontsWait ∉ (runExport k none env).trace ∧
    (∀ i, Ev.imageWait i ∉ (runExport k none env).trace) ∧
    (∀ i, Ev.capture i ∉ (runExport k none env).trace) ∧
    (runExport k none env).artifact = none := by
  have hrun : runExport k none env = ⟨none, [.alertNoContent], none, .noContent⟩ := by
    simp [runExport, h]
  refine ⟨hrun, ?_, ?_, ?_, ?_⟩ <;> simp [hrun]

/-- Claim C7 witness: the empty-content theorem evaluated on the environment
with no sections. -/
theorem emptyContentRun_witness :
    runExport .pdf none envEmpty = ⟨none, [.alertNoContent], none, .noContent⟩ ∧
    Ev.fontsWait ∉ (runExport .pdf none envEmpty).trace ∧
    (∀ i, Ev.imageWait i ∉ (runExport .pdf none envEmpty).trace) ∧
    (∀ i, Ev.capture i ∉ (runExport .pdf none envEmpty).trace) ∧
    (runExport .pdf none envEmpty).artifact = none :=
  emptyContentRun .pdf envEmpty rfl

theorem firstCaptureFailure_ne_none (env : Env) (j : Nat)
    (hj : j < env.sections.length) (hf : env.captureFails j = true) :
    firstCaptureFailure env ≠ none := by
  intro hnone
  rw [firstCaptureFailure, List.find?_eq_none] at hnone
  exact absurd hf (by simpa using hnone j (List.mem_range.mpr hj))

theorem isEmpty_false_of_lt (env : Env) (j : Nat)
    (hj : j < env.sections.length) : env.sections.isEmpty = false := by
  cases hsec : env.sections with
  | nil => rw [hsec] at hj; simp at hj
  | cons a l => rfl

theorem isEmpty_false_of_ne (env : Env) (hne : env.sections ≠ []) :
    env.sections.isEmpty = false := by
  cases hsec : env.sections with
  | nil => exact absurd hsec hne
  | cons a l => rfl

/-- Claim C8 theorem: all-or-nothing output. If the capture of any section
throws, or the final save/write throws, no artifact reaches the download
target; moreover the save step is never executed when a capture has
failed. -/
theorem allOrNothingOutput (k : Kind) (env : Env)
    (h : (∃ j, j < env.sections.length ∧ env.captureFails j = true) ∨
      env.saveFails = true) :
    (runExport k none env).artifact = none ∧
    (∀ j, j < env.sections.length → env.captureFails j = true →
      Ev.save ∉ (runExport k none env).trace) := by
  constructor
  · by_cases h1 : env.sections.isEmpty
    · simp [runExport, h1]
    · by_cases h2 : allImagesSettle env = true
      · cases h3 : firstCaptureFailure env with
        | some j => simp [runExport, h1, h2, h3]
        | none =>
            cases h with
            | inl hc =>
                obtain ⟨j, hj, hf⟩ := hc
                exact absurd h3 (firstCaptureFailure_ne_none env j hj hf)
            | inr hs => simp [runExport, h1, h2, h3, hs]
      · simp [runExport, h1, h2]
  · intro j hj hf
    have hne : env.sections.isEmpty = false := isEmpty_false_of_lt env j hj
    by_cases h2 : allImagesSettle env = true
    · cases h3 : firstCaptureFailure env with
      | some jf => simp [runExport, hne, h2, h3, readinessTrace]
      | none => exact absurd h3 (firstCaptureFailure_ne_none env j hj hf)
    · simp [runExport, hne, h2, readinessTrace]

/-- Claim C8 witness: in a run over five sections whose fourth capture
throws, no artifact is written and the save step never executes. -/
theorem allOrNothingOutput_witness :
    (runExport .pdf none envFail).artifact = none ∧
    (∀ j, j < envFail.sections.length → envFail.captureFails j = true →
      Ev.save ∉ (runExport .pdf none envFail).trace) :=
  allOrNothingOutput .pdf envFail (Or.inl ⟨3, by decide, by decide⟩)

/-- Claim C9 theorem: readiness before capture. When the gate can settle,
the run trace starts with the full readiness block — the font wait followed
by one wait per image — and no capture event occurs inside that block, so
every capture comes after fonts and after every image wait; and an image
wait counts as resolved when a load or an error signal fires, so a failed
image settles the gate rather than aborting it. -/
theorem readinessBeforeCapture (k : Kind) (env : Env) (img : ImgEl)
    (hne : env.sections ≠ [])
    (hset : allImagesSettle env = true)
    (himg : ImgEvent.load ∈ img.futureEvents ∨
      ImgEvent.error ∈ img.futureEvents) :
    (∃ post, (runExport k none env).trace = readinessTrace env ++ post) ∧
    Ev.fontsWait ∈ readinessTrace env ∧
    (∀ j, j < env.images.length → Ev.imageWait j ∈ readinessTrace env) ∧
    (∀ i, Ev.capture i ∉ readinessTrace env) ∧
    prepareImageResolves img = true := by
  have hne2 : env.sections.isEmpty = false := isEmpty_false_of_ne env hne
  refine ⟨?_, ?_, ?_, ?_, ?_⟩
  · cases h3 : firstCaptureFailure env with
    | some j =>
        exact ⟨(List.range (j + 1)).map Ev.capture ++ [.alertFailed],
          by simp [runExport, hne2, hset, h3]⟩
    | none =>
        by_cases h4 : env.saveFails
        · exact ⟨(List.range env.sections.length).map Ev.capture
              ++ [.save, .alertFailed],
            by simp [runExport, hne2, hset, h3, h4]⟩
        · exact ⟨(List.range env.sections.length).map Ev.capture ++ [.save],
            by simp [runExport, hne2, hset, h3, h4]⟩
  · simp [readinessTrace]
  · intro j hj
    simp only [readinessTrace, List.mem_cons, List.mem_map, List.mem_range]
    exact Or.inr ⟨j, hj, rfl⟩
  · intro i
    simp [readinessTrace]
  · have hne3 : img.futureEvents ≠ [] := by
      cases himg with
      | inl hl => exact List.ne_nil_of_mem hl
      | inr hr => exact List.ne_nil_of_mem hr
    have hfe : img.futureEvents.isEmpty = false := by
      cases hl : img.futureEvents with
      | nil => exact absurd hl hne3
      | cons a l => rfl
    simp [prepareImageResolves, hfe]

/-- Claim C9 witness: the readiness theorem evaluated on a run whose single
image settles through an error signal. -/
theorem readinessBeforeCapture_witness :
    (∃ post,
      (runExport .ppt none envErrImg).trace = readinessTrace envErrImg ++ post) ∧
    Ev.fontsWait ∈ readinessTrace envErrImg ∧
    (∀ j, j < envErrImg.images.length →
      Ev.imageWait j ∈ readinessTrace envErrImg) ∧
    (∀ i, Ev.capture i ∉ readinessTrace envErrImg) ∧
    prepareImageResolves imgErr = true :=
  readinessBeforeCapture .ppt envErrImg imgErr (by decide) (by decide)
    (Or.inr (by decide))

/-- Claim C10 theorem: an image that is already failed when the wait begins
(complete with naturalWidth zero) is not resolved by the already-complete
check; with no later load or error signal its wait never resolves, so the
run suspends at the readiness gate: no capture ever happens, no artifact is
written, and the flag stays stuck at the running kind. -/
theorem alreadyFailedImageStalls (img : ImgEl) (k : Kind) (env : Env)
    (hc : img.complete = true) (hw : img.naturalWidth = 0)
    (hev : img.futureEvents = [])
    (hmem : img ∈ env.images) (hne : env.sections ≠ []) :
    resolvesImmediately img = false ∧
    prepareImageResolves img = false ∧
    (runExport k none env).outcome = .suspended ∧
    (runExport k none env).finalState = some k ∧
    (∀ i, Ev.capture i ∉ (runExport k none env).trace) ∧
    (runExport k none env).artifact = none := by
  have h1 : resolvesImmediately img = false := by
    simp [resolvesImmediately, hc, hw]
  have h2 : prepareImageResolves img = false := by
    simp [prepareImageResolves, h1, hev]
  have hset : allImagesSettle env = false := by
    cases hall : allImagesSettle env with
    | false => rfl
    | true =>
        rw [allImagesSettle] at hall
        have hmm := List.all_eq_true.mp hall img hmem
        rw [h2] at hmm
        exact absurd hmm (by simp)
  have hne2 : env.sections.isEmpty = false := isEmpty_false_of_ne env hne
  have hrun : runExport k none env =
      ⟨some k, readinessTrace env, none, .suspended⟩ := by
    simp [runExport, hne2, hset]
  refine ⟨h1, h2, by simp [hrun], by simp [hrun], ?_, by simp [hrun]⟩
  intro i
  simp [hrun, readinessTrace]

/-- Claim C10 witness: the stall theorem evaluated on a run whose single
image is complete with naturalWidth zero and fires no further signal. -/
theorem alreadyFailedImageStalls_witness :
    resolvesImmediately imgStuck = false ∧
    prepareImageResolves imgStuck = false ∧
    (runExport .pdf none envStuck).outcome = .suspended ∧
    (runExport .pdf none envStuck).finalState = some .pdf ∧
    (∀ i, Ev.capture i ∉ (runExport .pdf none envStuck).trace) ∧
    (runExport .pdf none envStuck).artifact = none :=
  alreadyFailedImageStalls imgStuck .pdf envStuck rfl rfl rfl (by decide)
    (by decide)

end PdfHtml
